import Mathlib

/-!
Verification development for the diffeomorphic-VAE deformation core
(`src/models/longitudinal_models/diffeo_vae.py`).

The two model classes `DVAE` and `DRVAE` are embedded shallowly:

* Machine floats are modelled by `FV K` — a numeric field `K` (`ℚ` or `ℝ`)
  extended with `nan`, `inf`, `ninf`, with IEEE-style arithmetic on the
  special values (exact arithmetic on ordinary values).
* Batched tensors are modelled as `List (List (FV K))` — the outer list is
  the batch dimension, each inner list a flattened per-element tensor in
  row-major layout (component-major for vector fields, matching
  `torch.stack(torch.meshgrid(...)).view(1, dim, *dgs)`).
* The external helpers imported from `src.support` and the neural networks
  (`batched_vector_interpolation_adaptive`, `batched_scalar_interpolation_adaptive`,
  `batched_vector_smoothing`, encoders, decoders) are taken as explicit
  function parameters, exactly as the spec treats them (black-box
  collaborators with a fixed contract).
* Python `assert` failures and `ZeroDivisionError` are modelled with
  `Except`.
-/

/-- A machine-float value over an exact numeric carrier `K`: either an
ordinary value `val x`, or one of the IEEE special values `nan`, `inf`
(positive infinity), `ninf` (negative infinity). -/
inductive FV (K : Type) where
  | nan : FV K
  | inf : FV K
  | ninf : FV K
  | val : K → FV K
deriving DecidableEq

namespace FV

variable {K : Type} [LinearOrderedField K]

/-- IEEE-style addition: `nan` absorbs, `inf + ninf = nan`. -/
def add : FV K → FV K → FV K
  | nan, _ => nan
  | _, nan => nan
  | inf, ninf => nan
  | ninf, inf => nan
  | inf, _ => inf
  | _, inf => inf
  | ninf, _ => ninf
  | _, ninf => ninf
  | val a, val b => val (a + b)

/-- IEEE-style negation. -/
def neg : FV K → FV K
  | nan => nan
  | inf => ninf
  | ninf => inf
  | val a => val (-a)

/-- IEEE-style subtraction, as addition of the negation. -/
def sub (a b : FV K) : FV K := add a (neg b)

/-- IEEE-style multiplication: `nan` absorbs, `inf * 0 = nan`, otherwise
infinities keep the sign rule. -/
def mul : FV K → FV K → FV K
  | nan, _ => nan
  | _, nan => nan
  | inf, inf => inf
  | inf, ninf => ninf
  | ninf, inf => ninf
  | ninf, ninf => inf
  | inf, val b => if b = 0 then nan else if 0 < b then inf else ninf
  | val a, inf => if a = 0 then nan else if 0 < a then inf else ninf
  | ninf, val b => if b = 0 then nan else if 0 < b then ninf else inf
  | val a, ninf => if a = 0 then nan else if 0 < a then ninf else inf
  | val a, val b => val (a * b)

/-- IEEE-style division: `x / 0` is `±inf` for nonzero finite `x` and
`nan` for `x = 0`; `inf / inf = nan`; finite over infinite is `0`. -/
def div : FV K → FV K → FV K
  | nan, _ => nan
  | _, nan => nan
  | inf, inf => nan
  | inf, ninf => nan
  | ninf, inf => nan
  | ninf, ninf => nan
  | inf, val b => if 0 ≤ b then inf else ninf
  | ninf, val b => if 0 ≤ b then ninf else inf
  | val _, inf => val 0
  | val _, ninf => val 0
  | val a, val b =>
      if b = 0 then (if a = 0 then nan else if 0 < a then inf else ninf)
      else val (a / b)

/-- `torch.isnan` on a single value. -/
def isnan : FV K → Bool
  | nan => true
  | _ => false

/-- Whether the value is an ordinary (finite) float. -/
def isFiniteFV : FV K → Bool
  | val _ => true
  | _ => false

/-- The strict greater-than test of the host runtime (`a > b`): any
comparison involving `nan` is false. -/
def fgt : FV K → FV K → Bool
  | nan, _ => false
  | _, nan => false
  | inf, inf => false
  | inf, _ => true
  | ninf, _ => false
  | val _, inf => false
  | val _, ninf => true
  | val a, val b => decide (b < a)

/-- `torch.clamp(x, lo, hi)` on a single value (`lo ≤ hi` assumed):
`nan` passes through, infinities clamp to the corresponding bound. -/
def fclamp (lo hi : K) : FV K → FV K
  | nan => nan
  | inf => val hi
  | ninf => val lo
  | val x => val (min (max x lo) hi)

/-- `torch.sqrt` over the reals: `sqrt` of a negative value or of `ninf`
is `nan`, `sqrt inf = inf`. -/
noncomputable def sqrtR : FV ℝ → FV ℝ
  | nan => nan
  | inf => inf
  | ninf => nan
  | val x => if x < 0 then nan else val (Real.sqrt x)

end FV

/-- The square-root operation of the scalar runtime, supplied per carrier
(only the real instantiation has a genuine square root). -/
structure ScalarOps (K : Type) where
  msqrt : FV K → FV K

/-- The real-number scalar runtime: `msqrt` is IEEE `sqrt`. -/
noncomputable def realOps : ScalarOps ℝ := ⟨FV.sqrtR⟩

/-- Rational scalar runtime used for claims whose code path never reaches
`torch.sqrt` (the square-root slot is never consulted there). -/
def ratOps : ScalarOps ℚ := ⟨fun _ => FV.nan⟩

/-! ## Tensors -/

/-- A batched tensor: outer list indexes the batch, inner lists are the
flattened per-element contents. -/
abbrev Tensor (K : Type) : Type := List (List (FV K))

namespace Tensor

variable {K : Type} [LinearOrderedField K]

/-- Elementwise addition of two batched tensors of equal shape. -/
def tAdd (s t : Tensor K) : Tensor K :=
  List.zipWith (List.zipWith FV.add) s t

/-- Elementwise subtraction of two batched tensors of equal shape. -/
def tSub (s t : Tensor K) : Tensor K :=
  List.zipWith (List.zipWith FV.sub) s t

/-- Multiply every entry by a scalar (`c * t` with `c` a host scalar). -/
def tScale (c : K) (t : Tensor K) : Tensor K :=
  t.map (fun r => r.map (fun a => FV.mul (FV.val c) a))

/-- Divide every entry by a scalar (`t / c` with `c` a host scalar). -/
def tDivScalar (t : Tensor K) (c : K) : Tensor K :=
  t.map (fun r => r.map (fun a => FV.div a (FV.val c)))

/-- `torch.isnan(t).any()`. -/
def tHasNaN (t : Tensor K) : Bool :=
  t.any (fun r => r.any FV.isnan)

/-- The all-zeros batched tensor of batch size `bts` with `n` entries per
element. -/
def zeroTensor (bts n : ℕ) : Tensor K :=
  List.replicate bts (List.replicate n (FV.val (0 : K)))

end Tensor

/-! ## The identity sampling grid (`torch.linspace` / `torch.meshgrid`) -/

/-- `torch.linspace(a, b, n)`: `n` evenly spaced points from `a` to `b`
(empty for `n = 0`, the single point `a` for `n = 1`). -/
def linspace (a b : ℚ) (n : ℕ) : List ℚ :=
  if n ≤ 1 then (if n = 0 then [] else [a])
  else (List.range n).map (fun i : ℕ => a + (b - a) * (i : ℚ) / ((n : ℚ) - 1))

/-- All multi-indices of a given shape, enumerated row-major (first axis
slowest), as produced by flattening `torch.meshgrid` output. -/
def multiIndices : List ℕ → List (List ℕ)
  | [] => [[]]
  | n :: rest => (List.range n).flatMap (fun i => (multiIndices rest).map (fun idx => i :: idx))

/-- The coordinate of axis `c` of the base grid at downsampled index `i`:
entry `i` of `torch.linspace(0.0, gs[c] - 1.0, dgs[c])`. -/
def axisCoord (gs dgs : List ℕ) (c i : ℕ) : ℚ :=
  (linspace 0 ((gs.getD c 0 : ℚ) - 1) (dgs.getD c 0)).getD i 0

/-- One batch element of the base identity grid, flattened component-major
then row-major over the spatial multi-index: the flattening of
`torch.stack(torch.meshgrid([linspace(0, gs[c]-1, dgs[c]) for c])).view(dim, *dgs)`. -/
def gridElemQ (gs dgs : List ℕ) : List ℚ :=
  (List.range gs.length).flatMap
    (fun c => (multiIndices dgs).map (fun idx => axisCoord gs dgs c (idx.getD c 0)))

/-- The number of entries of one batch element of the base grid (and of a
velocity field over the downsampled grid): `dim * prod dgs`. -/
def gridRowLen (gs dgs : List ℕ) : ℕ :=
  (gridElemQ gs dgs).length

/-- The batched base identity grid: the per-element grid repeated along the
batch dimension (`.repeat(bts, 1, ...)`). -/
def identityGrid (K : Type) [LinearOrderedField K] (gs dgs : List ℕ) (bts : ℕ) : Tensor K :=
  List.replicate bts ((gridElemQ gs dgs).map (fun q : ℚ => FV.val (q : K)))

/-! ## Model construction (`__init__`) -/

/-- The constructor's failure modes: the two `assert` statements and the
`ZeroDivisionError` raised by `dt = 1. / float(number_of_time_points - 1)`
when `number_of_time_points = 1`. -/
inductive ConfigError where
  | dimensionAssert : ConfigError
  | downsamplingAssert : ConfigError
  | divisionByZero : ConfigError
deriving DecidableEq

/-- The configuration state a successful constructor establishes (the
deformation-relevant attributes of `DVAE` / `DRVAE`; the neural networks
are external collaborators and appear as function parameters of the
methods instead). -/
structure ModelParams where
  clamp_atlas : Bool
  tol : ℚ
  isometry_constraint : Bool
  nb_channels : ℕ
  grid_size : List ℕ
  latent_dimension : ℤ
  downsampling_grid : ℕ
  downsampled_grid_size : List ℕ
  deformation_kernel_width : ℚ
  number_of_time_points : ℤ
  dt : ℚ
deriving DecidableEq

/-- The `assert` failures of the forward path (the assertion messages of
the source, as an enumeration). -/
inductive NanError where
  | nanIntegrationStep : NanError
  | nanSource : NanError
  | nanWarpedSource : NanError
  | nanV : NanError
  | nanFieldStar : NanError
  | nanZPsi : NanError
  | nanZS : NanError
deriving DecidableEq

/-! ## Shared formulas of `decode_s` (identical in both classes) -/

/-- `torch.sum` over a flattened list of float values. -/
def fvSum {K : Type} [LinearOrderedField K] (l : List (FV K)) : FV K :=
  l.foldl FV.add (FV.val 0)

/-- `latent_norm_squared` for one batch element:
`torch.sum(z.view(bts, -1) ** 2, dim=1)`. -/
def latentNormSq {K : Type} [LinearOrderedField K] (zb : List (FV K)) : FV K :=
  fvSum (zb.map (fun a => FV.mul a a))

/-- `v_norm_squared` (the field energy) for one batch element:
`torch.sum(v_ * v_star, dim=(1, ..., dim + 1))`. -/
def fieldEnergy {K : Type} [LinearOrderedField K] (vb vsb : List (FV K)) : FV K :=
  fvSum (List.zipWith FV.mul vb vsb)

/-- The isometry normalizer for one batch element:
`torch.where(latent_norm_squared > tol, torch.sqrt(latent_norm_squared / v_norm_squared), 0.0)`.
There is no guard on the sign of the field energy `E`. -/
def isoScale {K : Type} [LinearOrderedField K] (ops : ScalarOps K) (tol : K)
    (L E : FV K) : FV K :=
  if FV.fgt L (FV.val tol) then ops.msqrt (FV.div L E) else FV.val 0

namespace DVAE

/-- `DVAE.__init__`: `shape0` is the shape of `data_statistics[0]`
(channels followed by the spatial axes; the constructor prepends the
batch axis with `unsqueeze(0)`, so `grid_size = size()[2:]` is
`shape0.drop 1` and `nb_channels = size(1)` is `shape0.getD 0 0`).
Checks run in source order: the dimension assert, the downsampling
assert (on `2 ** downsampling_grid`), then the `dt` division, which
raises `ZeroDivisionError` exactly when `number_of_time_points = 1`. -/
def init (shape0 : List ℕ) (latent_dimension : ℤ) (unclamp_atlas : Bool)
    (tol : ℚ) (isometry_constraint : Bool) (downsampling_grid : ℕ)
    (deformation_kernel_width : ℚ) (number_of_time_points : ℤ) :
    Except ConfigError ModelParams :=
  let grid_size := shape0.drop 1
  if grid_size.length = 2 ∨ grid_size.length = 3 then
    let dsg := 2 ^ downsampling_grid
    if dsg = 1 ∨ dsg = 2 ∨ dsg = 4 then
      if number_of_time_points = 1 then Except.error ConfigError.divisionByZero
      else Except.ok
        { clamp_atlas := !unclamp_atlas
          tol := tol
          isometry_constraint := isometry_constraint
          nb_channels := shape0.getD 0 0
          grid_size := grid_size
          latent_dimension := latent_dimension
          downsampling_grid := dsg
          downsampled_grid_size := grid_size.map (fun gsz => gsz / dsg)
          deformation_kernel_width := deformation_kernel_width
          number_of_time_points := number_of_time_points
          dt := 1 / ((number_of_time_points : ℚ) - 1) }
    else Except.error ConfigError.downsamplingAssert
  else Except.error ConfigError.dimensionAssert

/-- `DVAE.vector_field_integration`: scale-and-square integration of the
velocity field `v_`. `vinterp` is the external
`batched_vector_interpolation_adaptive` collaborator (taking the
downsampling factor, the displacement field and the query points). Each
loop iteration ends with `assert not torch.isnan(x).any()`. -/
def vector_field_integration {K : Type} [LinearOrderedField K]
    (vinterp : ℕ → Tensor K → Tensor K → Tensor K)
    (st : ModelParams) (v_ : Tensor K) : Except NanError (Tensor K) :=
  let bts := v_.length
  let dsf := st.downsampling_grid
  let ntp := st.number_of_time_points
  let grid := identityGrid K st.grid_size st.downsampled_grid_size bts
  let x0 := Tensor.tAdd grid (Tensor.tDivScalar v_ ((2 : K) ^ ntp))
  (List.range ntp.toNat).foldlM
    (fun x _t =>
      let x' := Tensor.tAdd x (Tensor.tScale ((st.dt : K)) (vinterp dsf (Tensor.tSub x grid) x))
      if Tensor.tHasNaN x' then Except.error NanError.nanIntegrationStep
      else Except.ok x')
    x0

/-- `DVAE.apply_diffeomorphism`: warp `source` along the diffeomorphism via
the external `batched_scalar_interpolation_adaptive` collaborator
`sinterp`, with NaN asserts before and after. -/
def apply_diffeomorphism {K : Type} [LinearOrderedField K]
    (sinterp : Tensor K → Tensor K → Tensor K)
    (source diffeomorphism : Tensor K) : Except NanError (Tensor K) :=
  if Tensor.tHasNaN source then Except.error NanError.nanSource
  else
    let warped_source := sinterp source diffeomorphism
    if Tensor.tHasNaN warped_source then Except.error NanError.nanWarpedSource
    else Except.ok warped_source

/-- `DVAE.decode_s`: latents to displacement field. `decoder_s` is the
neural momentum decoder, `smoother` the external
`batched_vector_smoothing` (velocity field, kernel width, `scaled` flag). -/
def decode_s {K : Type} [LinearOrderedField K] (ops : ScalarOps K)
    (decoder_s : Tensor K → Tensor K) (smoother : Tensor K → ℚ → Bool → Tensor K)
    (vinterp : ℕ → Tensor K → Tensor K → Tensor K)
    (st : ModelParams) (z_psi z : Tensor K) : Except NanError (Tensor K) :=
  let z_stacked := List.zipWith (fun a b => a ++ b) z_psi z
  let latent_norm_squared := z.map latentNormSq
  let v_star := decoder_s z_stacked
  let v0 := smoother v_star st.deformation_kernel_width false
  let v_ :=
    if st.isometry_constraint then
      let v_norm_squared := List.zipWith fieldEnergy v0 v_star
      let normalizer :=
        List.zipWith (fun L E => isoScale ops ((st.tol : K)) L E) latent_norm_squared v_norm_squared
      List.zipWith (fun vb nb => vb.map (fun a => FV.mul a nb)) v0 normalizer
    else v0
  if Tensor.tHasNaN v_ then Except.error NanError.nanV
  else vector_field_integration vinterp st v_

/-- `DVAE.absolute_decode`: split the latent, decode the displacement
field, run the NaN asserts, broadcast (and optionally clamp) the atlas,
and apply the diffeomorphism. `atlas` is the flattened atlas tensor
(its single batch element). -/
def absolute_decode {K : Type} [LinearOrderedField K] (ops : ScalarOps K)
    (decoder_s : Tensor K → Tensor K) (smoother : Tensor K → ℚ → Bool → Tensor K)
    (vinterp : ℕ → Tensor K → Tensor K → Tensor K)
    (sinterp : Tensor K → Tensor K → Tensor K)
    (st : ModelParams) (atlas : List (FV K)) (z : Tensor K) : Except NanError (Tensor K) :=
  let z_psi := z.map (fun r => r.take 1)
  let z_s := z.map (fun r => (r.drop 1).take (st.latent_dimension - 1).toNat)
  match decode_s ops decoder_s smoother vinterp st z_psi z_s with
  | Except.error e => Except.error e
  | Except.ok field_star =>
    if Tensor.tHasNaN field_star then Except.error NanError.nanFieldStar
    else if Tensor.tHasNaN z_psi then Except.error NanError.nanZPsi
    else if Tensor.tHasNaN z_s then Except.error NanError.nanZS
    else
      let reshaped_atlas := List.replicate z_psi.length atlas
      let reshaped_atlas :=
        if st.clamp_atlas then
          reshaped_atlas.map (fun r => r.map (FV.fclamp ((st.tol : K)) (1 - (st.tol : K))))
        else reshaped_atlas
      apply_diffeomorphism sinterp reshaped_atlas field_star

/-- `DVAE.decode`: delegates to `absolute_decode`. -/
def decode {K : Type} [LinearOrderedField K] (ops : ScalarOps K)
    (decoder_s : Tensor K → Tensor K) (smoother : Tensor K → ℚ → Bool → Tensor K)
    (vinterp : ℕ → Tensor K → Tensor K → Tensor K)
    (sinterp : Tensor K → Tensor K → Tensor K)
    (st : ModelParams) (atlas : List (FV K)) (z : Tensor K) : Except NanError (Tensor K) :=
  absolute_decode ops decoder_s smoother vinterp sinterp st atlas z

/-- `DVAE.encode`: run the two encoders directly on the observation; no
anchoring. The encoders are the external black-box collaborators,
producing real vectors. -/
def encode {K : Type} [LinearOrderedField K] {Obs : Type}
    (time_encoder space_encoder : Obs → List K) (observations : Obs) :
    List K × List K :=
  (time_encoder observations, space_encoder observations)

end DVAE

namespace DRVAE

/-- `DRVAE.__init__`: textually identical to `DVAE.__init__`. -/
def init (shape0 : List ℕ) (latent_dimension : ℤ) (unclamp_atlas : Bool)
    (tol : ℚ) (isometry_constraint : Bool) (downsampling_grid : ℕ)
    (deformation_kernel_width : ℚ) (number_of_time_points : ℤ) :
    Except ConfigError ModelParams :=
  let grid_size := shape0.drop 1
  if grid_size.length = 2 ∨ grid_size.length = 3 then
    let dsg := 2 ^ downsampling_grid
    if dsg = 1 ∨ dsg = 2 ∨ dsg = 4 then
      if number_of_time_points = 1 then Except.error ConfigError.divisionByZero
      else Except.ok
        { clamp_atlas := !unclamp_atlas
          tol := tol
          isometry_constraint := isometry_constraint
          nb_channels := shape0.getD 0 0
          grid_size := grid_size
          latent_dimension := latent_dimension
          downsampling_grid := dsg
          downsampled_grid_size := grid_size.map (fun gsz => gsz / dsg)
          deformation_kernel_width := deformation_kernel_width
          number_of_time_points := number_of_time_points
          dt := 1 / ((number_of_time_points : ℚ) - 1) }
    else Except.error ConfigError.downsamplingAssert
  else Except.error ConfigError.dimensionAssert

/-- `DRVAE.vector_field_integration`: textually identical to the `DVAE`
method. -/
def vector_field_integration {K : Type} [LinearOrderedField K]
    (vinterp : ℕ → Tensor K → Tensor K → Tensor K)
    (st : ModelParams) (v_ : Tensor K) : Except NanError (Tensor K) :=
  let bts := v_.length
  let dsf := st.downsampling_grid
  let ntp := st.number_of_time_points
  let grid := identityGrid K st.grid_size st.downsampled_grid_size bts
  let x0 := Tensor.tAdd grid (Tensor.tDivScalar v_ ((2 : K) ^ ntp))
  (List.range ntp.toNat).foldlM
    (fun x _t =>
      let x' := Tensor.tAdd x (Tensor.tScale ((st.dt : K)) (vinterp dsf (Tensor.tSub x grid) x))
      if Tensor.tHasNaN x' then Except.error NanError.nanIntegrationStep
      else Except.ok x')
    x0

/-- `DRVAE.apply_diffeomorphism`: textually identical to the `DVAE`
method. -/
def apply_diffeomorphism {K : Type} [LinearOrderedField K]
    (sinterp : Tensor K → Tensor K → Tensor K)
    (source diffeomorphism : Tensor K) : Except NanError (Tensor K) :=
  if Tensor.tHasNaN source then Except.error NanError.nanSource
  else
    let warped_source := sinterp source diffeomorphism
    if Tensor.tHasNaN warped_source then Except.error NanError.nanWarpedSource
    else Except.ok warped_source

/-- `DRVAE.atlas_anchors`: the atlas's own pre-latent encodings
(`self.atlas.detach()` — `detach` only blocks gradients, so it is the
identity denotationally). -/
def atlas_anchors {K : Type} [LinearOrderedField K] {Obs : Type}
    (time_encoder space_encoder : Obs → List K) (atlas : Obs) :
    List K × List K :=
  (time_encoder atlas, space_encoder atlas)

/-- `DRVAE.atlas_anchoring`: subtract the atlas anchors from the given
pre-latents. -/
def atlas_anchoring {K : Type} [LinearOrderedField K] {Obs : Type}
    (time_encoder space_encoder : Obs → List K) (atlas : Obs)
    (z_psi z_s : List K) : List K × List K :=
  let anchors := atlas_anchors time_encoder space_encoder atlas
  (List.zipWith (fun a b => a - b) z_psi anchors.1,
   List.zipWith (fun a b => a - b) z_s anchors.2)

/-- `DRVAE.encode`: run the two encoders on the observation, then anchor
the pre-latents against the atlas's own encodings. -/
def encode {K : Type} [LinearOrderedField K] {Obs : Type}
    (time_encoder space_encoder : Obs → List K) (atlas : Obs)
    (observations : Obs) : List K × List K :=
  let pre_z_psi := time_encoder observations
  let pre_z_s := space_encoder observations
  atlas_anchoring time_encoder space_encoder atlas pre_z_psi pre_z_s

/-- `DRVAE.decode_s`: textually identical to the `DVAE` method. -/
def decode_s {K : Type} [LinearOrderedField K] (ops : ScalarOps K)
    (decoder_s : Tensor K → Tensor K) (smoother : Tensor K → ℚ → Bool → Tensor K)
    (vinterp : ℕ → Tensor K → Tensor K → Tensor K)
    (st : ModelParams) (z_psi z : Tensor K) : Except NanError (Tensor K) :=
  let z_stacked := List.zipWith (fun a b => a ++ b) z_psi z
  let latent_norm_squared := z.map latentNormSq
  let v_star := decoder_s z_stacked
  let v0 := smoother v_star st.deformation_kernel_width false
  let v_ :=
    if st.isometry_constraint then
      let v_norm_squared := List.zipWith fieldEnergy v0 v_star
      let normalizer :=
        List.zipWith (fun L E => isoScale ops ((st.tol : K)) L E) latent_norm_squared v_norm_squared
      List.zipWith (fun vb nb => vb.map (fun a => FV.mul a nb)) v0 normalizer
    else v0
  if Tensor.tHasNaN v_ then Except.error NanError.nanV
  else vector_field_integration vinterp st v_

/-- `DRVAE.absolute_decode`: textually identical to the `DVAE` method. -/
def absolute_decode {K : Type} [LinearOrderedField K] (ops : ScalarOps K)
    (decoder_s : Tensor K → Tensor K) (smoother : Tensor K → ℚ → Bool → Tensor K)
    (vinterp : ℕ → Tensor K → Tensor K → Tensor K)
    (sinterp : Tensor K → Tensor K → Tensor K)
    (st : ModelParams) (atlas : List (FV K)) (z : Tensor K) : Except NanError (Tensor K) :=
  let z_psi := z.map (fun r => r.take 1)
  let z_s := z.map (fun r => (r.drop 1).take (st.latent_dimension - 1).toNat)
  match decode_s ops decoder_s smoother vinterp st z_psi z_s with
  | Except.error e => Except.error e
  | Except.ok field_star =>
    if Tensor.tHasNaN field_star then Except.error NanError.nanFieldStar
    else if Tensor.tHasNaN z_psi then Except.error NanError.nanZPsi
    else if Tensor.tHasNaN z_s then Except.error NanError.nanZS
    else
      let reshaped_atlas := List.replicate z_psi.length atlas
      let reshaped_atlas :=
        if st.clamp_atlas then
          reshaped_atlas.map (fun r => r.map (FV.fclamp ((st.tol : K)) (1 - (st.tol : K))))
        else reshaped_atlas
      apply_diffeomorphism sinterp reshaped_atlas field_star

/-- `DRVAE.decode`: delegates to `absolute_decode`. -/
def decode {K : Type} [LinearOrderedField K] (ops : ScalarOps K)
    (decoder_s : Tensor K → Tensor K) (smoother : Tensor K → ℚ → Bool → Tensor K)
    (vinterp : ℕ → Tensor K → Tensor K → Tensor K)
    (sinterp : Tensor K → Tensor K → Tensor K)
    (st : ModelParams) (atlas : List (FV K)) (z : Tensor K) : Except NanError (Tensor K) :=
  absolute_decode ops decoder_s smoother vinterp sinterp st atlas z

end DRVAE

/-! ## Auxiliary definitions for concrete instantiations -/

instance exceptDecidableEq {ε α : Type} [DecidableEq ε] [DecidableEq α] :
    DecidableEq (Except ε α)
  | Except.error e, Except.error f =>
      if h : e = f then isTrue (by rw [h]) else isFalse (fun hh => h (by injection hh))
  | Except.error _, Except.ok _ => isFalse (fun hh => Except.noConfusion hh)
  | Except.ok _, Except.error _ => isFalse (fun hh => Except.noConfusion hh)
  | Except.ok a, Except.ok b =>
      if h : a = b then isTrue (by rw [h]) else isFalse (fun hh => h (by injection hh))

/-- A concrete vector interpolator used to instantiate hypotheses about the
external `batched_vector_interpolation_adaptive`: it returns the
displacement field unchanged (in particular it maps the all-zeros field to
itself and preserves shapes). -/
def interpId : ℕ → Tensor ℚ → Tensor ℚ → Tensor ℚ := fun _ d _ => d

/-- A small concrete valid configuration (2-dimensional `1 × 1` grid,
downsampling factor 1, two integration time points). -/
def cfgTiny : ModelParams :=
  { clamp_atlas := true
    tol := 1 / 100000
    isometry_constraint := false
    nb_channels := 1
    grid_size := [1, 1]
    latent_dimension := 4
    downsampling_grid := 1
    downsampled_grid_size := [1, 1]
    deformation_kernel_width := 1
    number_of_time_points := 2
    dt := 1 }

/-! ## Pointwise float lemmas -/

section FVLemmas

variable {K : Type} [LinearOrderedField K]

theorem fvAdd_nan_left (y : FV K) : FV.add FV.nan y = FV.nan := by cases y <;> rfl

theorem fvAdd_nan_right (y : FV K) : FV.add y FV.nan = FV.nan := by cases y <;> rfl

theorem fvAdd_val_zero (y : FV K) : FV.add y (FV.val 0) = y := by
  cases y <;> simp [FV.add]

theorem fvSub_val_self (a : K) : FV.sub (FV.val a) (FV.val a) = FV.val 0 := by
  simp [FV.sub, FV.neg, FV.add]

theorem fvDiv_nan_left (y : FV K) : FV.div FV.nan y = FV.nan := by cases y <;> rfl

theorem fvDiv_val_zero (c : K) (hc : c ≠ 0) : FV.div (FV.val 0) (FV.val c) = FV.val 0 := by
  simp [FV.div, hc]

theorem fvMul_val_val (a b : K) : FV.mul (FV.val a) (FV.val b) = FV.val (a * b) := rfl

theorem zipWith_add_self_zero (r : List (FV K)) (n : ℕ) (h : r.length = n) :
    List.zipWith FV.add r (List.replicate n (FV.val 0)) = r := by
  subst h
  induction r with
  | nil => rfl
  | cons a t ih => simp [List.replicate_succ, fvAdd_val_zero, ih]

theorem zipWith_sub_valcast_self (qs : List ℚ) :
    List.zipWith FV.sub (qs.map (fun q : ℚ => FV.val (q : K)))
        (qs.map (fun q : ℚ => FV.val (q : K))) =
      List.replicate qs.length (FV.val 0) := by
  induction qs with
  | nil => rfl
  | cons a t ih =>
      rw [List.map_cons, List.zipWith_cons_cons, fvSub_val_self, List.length_cons,
        List.replicate_succ, ih]

theorem zipWith_replicate_both {α β γ : Type} (f : α → β → γ) (n : ℕ) (a : α) (b : β) :
    List.zipWith f (List.replicate n a) (List.replicate n b) = List.replicate n (f a b) := by
  induction n with
  | zero => rfl
  | succ k ih => simpa [List.replicate_succ] using ih

theorem gridElemK_length (gs dgs : List ℕ) :
    ((gridElemQ gs dgs).map (fun q : ℚ => FV.val (q : K))).length = gridRowLen gs dgs := by
  rw [List.length_map]; rfl

theorem tAdd_identityGrid_zero (gs dgs : List ℕ) (bts : ℕ) :
    Tensor.tAdd (identityGrid K gs dgs bts)
        (Tensor.zeroTensor bts (gridRowLen gs dgs)) =
      identityGrid K gs dgs bts := by
  unfold Tensor.tAdd identityGrid Tensor.zeroTensor
  rw [zipWith_replicate_both]
  congr 1
  exact zipWith_add_self_zero _ _ (gridElemK_length gs dgs)

theorem tSub_identityGrid_self (gs dgs : List ℕ) (bts : ℕ) :
    Tensor.tSub (identityGrid K gs dgs bts) (identityGrid K gs dgs bts) =
      Tensor.zeroTensor bts (gridRowLen gs dgs) := by
  unfold Tensor.tSub identityGrid Tensor.zeroTensor
  rw [zipWith_replicate_both]
  congr 1
  rw [zipWith_sub_valcast_self]
  rfl

theorem tDivScalar_zero (bts n : ℕ) (c : K) (hc : c ≠ 0) :
    Tensor.tDivScalar (Tensor.zeroTensor bts n) c = Tensor.zeroTensor bts n := by
  unfold Tensor.tDivScalar Tensor.zeroTensor
  simp [List.map_replicate, fvDiv_val_zero _ hc]

theorem tScale_zero (bts n : ℕ) (c : K) :
    Tensor.tScale c (Tensor.zeroTensor bts n) = Tensor.zeroTensor bts n := by
  unfold Tensor.tScale Tensor.zeroTensor
  simp [List.map_replicate, fvMul_val_val]

theorem tHasNaN_identityGrid (gs dgs : List ℕ) (bts : ℕ) :
    Tensor.tHasNaN (identityGrid K gs dgs bts) = false := by
  unfold Tensor.tHasNaN identityGrid
  rw [List.any_eq_false]
  intro r hr
  rw [List.eq_of_mem_replicate hr, Bool.not_eq_true, List.any_eq_false]
  intro a ha
  obtain ⟨q, _, rfl⟩ := List.mem_map.mp ha
  simp [FV.isnan]

theorem zeroTensor_length (bts n : ℕ) :
    (Tensor.zeroTensor (K := K) bts n).length = bts := by
  simp [Tensor.zeroTensor]

theorem getD_zipWith_of_lt {α β γ : Type} (f : α → β → γ) (as : List α) (bs : List β)
    (da : α) (db : β) (dc : γ) (i : ℕ) (ha : i < as.length) (hb : i < bs.length) :
    (List.zipWith f as bs).getD i dc = f (as.getD i da) (bs.getD i db) := by
  have hz : i < (List.zipWith f as bs).length := by
    rw [List.length_zipWith]; exact lt_min ha hb
  rw [List.getD_eq_getElem _ _ hz, List.getD_eq_getElem _ _ ha, List.getD_eq_getElem _ _ hb,
    List.getElem_zipWith]

theorem getD_map_of_lt {α β : Type} (f : α → β) (l : List α) (da : α) (db : β) (i : ℕ)
    (h : i < l.length) : (l.map f).getD i db = f (l.getD i da) := by
  have hm : i < (l.map f).length := by rw [List.length_map]; exact h
  rw [List.getD_eq_getElem _ _ hm, List.getD_eq_getElem _ _ h, List.getElem_map]

theorem getD_replicate_of_lt {α : Type} (n : ℕ) (a d : α) (i : ℕ) (h : i < n) :
    (List.replicate n a).getD i d = a := by
  have hr : i < (List.replicate n a).length := by rw [List.length_replicate]; exact h
  rw [List.getD_eq_getElem _ _ hr, List.getElem_replicate]

theorem tHasNaN_of_entry (t : Tensor K) (b i : ℕ) (hb : b < t.length)
    (hi : i < (t.getD b []).length) (h : (t.getD b []).getD i (FV.val 0) = FV.nan) :
    Tensor.tHasNaN t = true := by
  unfold Tensor.tHasNaN
  rw [List.any_eq_true]
  refine ⟨t.getD b [], ?_, ?_⟩
  · rw [List.getD_eq_getElem _ _ hb]; exact List.getElem_mem hb
  · rw [List.any_eq_true]
    refine ⟨(t.getD b []).getD i (FV.val 0), ?_, by rw [h]; rfl⟩
    rw [List.getD_eq_getElem _ _ hi]; exact List.getElem_mem hi

theorem foldlM_const_ok {α β : Type} (step : α → β → Except NanError α) (x : α)
    (hstep : ∀ t, step x t = Except.ok x) (l : List β) :
    l.foldlM step x = Except.ok x := by
  induction l with
  | nil => rfl
  | cons a t ih => rw [List.foldlM_cons, hstep a]; exact ih

theorem foldlM_first_error {α β : Type} (step : α → β → Except NanError α) (x : α)
    (e : NanError) (a : β) (l : List β) (h : step x a = Except.error e) :
    (a :: l).foldlM step x = Except.error e := by
  rw [List.foldlM_cons, h]; rfl

end FVLemmas

/-! ## C1: integration of the all-zero velocity field -/

/-- C1. For every configuration with `number_of_time_points ≥ 2` and every
batch size, `vector_field_integration` (of either model class) applied to
the all-zeros velocity field returns the identity sampling grid, provided
the external vector interpolator maps the all-zeros displacement field to
itself. -/
theorem zero_velocity_integration_identity {K : Type} [LinearOrderedField K]
    (st : ModelParams) (interp : ℕ → Tensor K → Tensor K → Tensor K) (bts : ℕ)
    (hntp : 2 ≤ st.number_of_time_points)
    (hinterp : ∀ dsf x, interp dsf
        (Tensor.zeroTensor bts (gridRowLen st.grid_size st.downsampled_grid_size)) x =
        Tensor.zeroTensor bts (gridRowLen st.grid_size st.downsampled_grid_size)) :
    DVAE.vector_field_integration interp st
        (Tensor.zeroTensor bts (gridRowLen st.grid_size st.downsampled_grid_size)) =
      Except.ok (identityGrid K st.grid_size st.downsampled_grid_size bts) ∧
    DRVAE.vector_field_integration interp st
        (Tensor.zeroTensor bts (gridRowLen st.grid_size st.downsampled_grid_size)) =
      Except.ok (identityGrid K st.grid_size st.downsampled_grid_size bts) := by
  have hc : ((2 : K) ^ st.number_of_time_points) ≠ 0 :=
    zpow_ne_zero _ two_ne_zero
  have main :
      DVAE.vector_field_integration interp st
          (Tensor.zeroTensor bts (gridRowLen st.grid_size st.downsampled_grid_size)) =
        Except.ok (identityGrid K st.grid_size st.downsampled_grid_size bts) := by
    simp only [DVAE.vector_field_integration, zeroTensor_length]
    rw [tDivScalar_zero _ _ _ hc, tAdd_identityGrid_zero]
    apply foldlM_const_ok
    intro t
    rw [tSub_identityGrid_self, hinterp, tScale_zero, tAdd_identityGrid_zero,
      tHasNaN_identityGrid]
    simp
  exact ⟨main, main⟩

/-- Witness for C1: the tiny concrete configuration, batch size 1, and the
identity-on-displacement interpolator. -/
theorem zero_velocity_integration_identity_witness :
    (2 ≤ cfgTiny.number_of_time_points) ∧
    DVAE.vector_field_integration interpId cfgTiny
        (Tensor.zeroTensor 1 (gridRowLen cfgTiny.grid_size cfgTiny.downsampled_grid_size)) =
      Except.ok (identityGrid ℚ cfgTiny.grid_size cfgTiny.downsampled_grid_size 1) :=
  ⟨by decide,
    (zero_velocity_integration_identity cfgTiny interpId 1 (by decide)
      (fun _ _ => rfl)).1⟩

/-! ## C7: a NaN in the velocity field aborts the integration -/

/-- If the velocity field `v` has a NaN entry at row `b`, position `i`,
then one scale-and-square step starting from `identity + v / 2^ntp`
contains a NaN, whatever tensor `w` the vector interpolator returned
(provided `w` is large enough for the entry to survive the zip). -/
theorem step_nan {K : Type} [LinearOrderedField K] (gE : List (FV K)) (v w : Tensor K)
    (cK dtK : K) (b i : ℕ) (hb : b < v.length)
    (hgE : gE.length = (v.getD b []).length)
    (hi : i < (v.getD b []).length)
    (hnan : (v.getD b []).getD i (FV.val 0) = FV.nan)
    (hwlen : b < w.length) (hwrow : i < (w.getD b []).length) :
    Tensor.tHasNaN
        (Tensor.tAdd (Tensor.tAdd (List.replicate v.length gE) (Tensor.tDivScalar v cK))
          (Tensor.tScale dtK w)) = true := by
  set X0 : Tensor K := Tensor.tAdd (List.replicate v.length gE) (Tensor.tDivScalar v cK)
    with hX0def
  set Y : Tensor K := Tensor.tAdd X0 (Tensor.tScale dtK w) with hYdef
  have hX0b : X0.getD b [] =
      List.zipWith FV.add gE ((v.getD b []).map (fun a => FV.div a (FV.val cK))) := by
    rw [hX0def]
    unfold Tensor.tAdd Tensor.tDivScalar
    rw [getD_zipWith_of_lt (List.zipWith FV.add) _ _ [] [] [] b
      (by rw [List.length_replicate]; exact hb) (by rw [List.length_map]; exact hb),
      getD_replicate_of_lt v.length gE [] b hb, getD_map_of_lt _ _ [] [] b hb]
  have hX0len : X0.length = v.length := by
    rw [hX0def]
    unfold Tensor.tAdd Tensor.tDivScalar
    rw [List.length_zipWith, List.length_replicate, List.length_map, min_self]
  have hX0blen : (X0.getD b []).length = (v.getD b []).length := by
    rw [hX0b, List.length_zipWith, List.length_map, hgE, min_self]
  have hX0bi : (X0.getD b []).getD i (FV.val 0) = FV.nan := by
    rw [hX0b,
      getD_zipWith_of_lt FV.add _ _ (FV.val 0) (FV.val 0) (FV.val 0) i
        (by rw [hgE]; exact hi) (by rw [List.length_map]; exact hi),
      getD_map_of_lt _ _ (FV.val 0) (FV.val 0) i hi, hnan, fvDiv_nan_left, fvAdd_nan_right]
  have hYb : Y.getD b [] =
      List.zipWith FV.add (X0.getD b [])
        ((w.getD b []).map (fun a => FV.mul (FV.val dtK) a)) := by
    rw [hYdef]
    unfold Tensor.tAdd Tensor.tScale
    rw [getD_zipWith_of_lt (List.zipWith FV.add) _ _ [] [] [] b
      (by rw [hX0len]; exact hb) (by rw [List.length_map]; exact hwlen),
      getD_map_of_lt _ _ [] [] b hwlen]
  have hYbi : (Y.getD b []).getD i (FV.val 0) = FV.nan := by
    rw [hYb,
      getD_zipWith_of_lt FV.add _ _ (FV.val 0) (FV.val 0) (FV.val 0) i
        (by rw [hX0blen]; exact hi) (by rw [List.length_map]; exact hwrow),
      hX0bi, fvAdd_nan_left]
  have hbY : b < Y.length := by
    rw [hYdef]
    unfold Tensor.tAdd Tensor.tScale
    rw [List.length_zipWith, hX0len, List.length_map]
    exact lt_min hb hwlen
  have hiY : i < (Y.getD b []).length := by
    rw [hYb, List.length_zipWith, hX0blen, List.length_map]
    exact lt_min hi hwrow
  exact tHasNaN_of_entry Y b i hbY hiY hYbi

/-- C7. If the velocity field handed to `vector_field_integration` (of
either model class) contains a NaN, the integration aborts with the
NaN assertion failure instead of returning a sampling grid, for every
configuration with `number_of_time_points ≥ 1` (the external vector
interpolator is only assumed to preserve tensor shapes). -/
theorem nan_velocity_integration_error {K : Type} [LinearOrderedField K]
    (st : ModelParams) (interp : ℕ → Tensor K → Tensor K → Tensor K) (v : Tensor K)
    (b i : ℕ) (hb : b < v.length)
    (hrowb : (v.getD b []).length = gridRowLen st.grid_size st.downsampled_grid_size)
    (hi : i < (v.getD b []).length)
    (hnan : (v.getD b []).getD i (FV.val 0) = FV.nan)
    (hshape : ∀ dsf d x, (interp dsf d x).map List.length = d.map List.length)
    (hntp : 1 ≤ st.number_of_time_points) :
    DVAE.vector_field_integration interp st v = Except.error NanError.nanIntegrationStep ∧
    DRVAE.vector_field_integration interp st v = Except.error NanError.nanIntegrationStep := by
  have main : DVAE.vector_field_integration interp st v =
      Except.error NanError.nanIntegrationStep := by
    obtain ⟨k, hk⟩ : ∃ k, st.number_of_time_points.toNat = k + 1 :=
      ⟨st.number_of_time_points.toNat - 1, by omega⟩
    simp only [DVAE.vector_field_integration, identityGrid, hk, List.range_succ_eq_map]
    set gE : List (FV K) :=
      (gridElemQ st.grid_size st.downsampled_grid_size).map (fun q : ℚ => FV.val (q : K))
      with hgEdef
    set grid : Tensor K := List.replicate v.length gE with hgriddef
    set X0 : Tensor K :=
      Tensor.tAdd grid (Tensor.tDivScalar v ((2 : K) ^ st.number_of_time_points)) with hX0def
    apply foldlM_first_error
    dsimp only
    set w : Tensor K := interp st.downsampling_grid (Tensor.tSub X0 grid) X0 with hwdef
    have hgElen : gE.length = (v.getD b []).length := by
      rw [hgEdef, gridElemK_length, hrowb]
    have hX0len : X0.length = v.length := by
      rw [hX0def, hgriddef]
      unfold Tensor.tAdd Tensor.tDivScalar
      rw [List.length_zipWith, List.length_replicate, List.length_map, min_self]
    have hdlen : (Tensor.tSub X0 grid).length = v.length := by
      unfold Tensor.tSub
      rw [List.length_zipWith, hX0len, hgriddef, List.length_replicate, min_self]
    have hwlen : w.length = v.length := by
      have h2 := congrArg List.length
        (hshape st.downsampling_grid (Tensor.tSub X0 grid) X0)
      rw [List.length_map, List.length_map] at h2
      rw [hwdef, h2, hdlen]
    have hbw : b < w.length := by rw [hwlen]; exact hb
    have hX0b : X0.getD b [] =
        List.zipWith FV.add gE
          ((v.getD b []).map
            (fun a => FV.div a (FV.val ((2 : K) ^ st.number_of_time_points)))) := by
      rw [hX0def, hgriddef]
      unfold Tensor.tAdd Tensor.tDivScalar
      rw [getD_zipWith_of_lt (List.zipWith FV.add) _ _ [] [] [] b
        (by rw [List.length_replicate]; exact hb) (by rw [List.length_map]; exact hb),
        getD_replicate_of_lt v.length gE [] b hb, getD_map_of_lt _ _ [] [] b hb]
    have hX0blen : (X0.getD b []).length = (v.getD b []).length := by
      rw [hX0b, List.length_zipWith, hgElen, List.length_map, min_self]
    have hdb : (Tensor.tSub X0 grid).getD b [] =
        List.zipWith FV.sub (X0.getD b []) gE := by
      unfold Tensor.tSub
      rw [getD_zipWith_of_lt (List.zipWith FV.sub) _ _ [] [] [] b
        (by rw [hX0len]; exact hb) (by rw [hgriddef, List.length_replicate]; exact hb),
        hgriddef, getD_replicate_of_lt v.length gE [] b hb]
    have hwrow : i < (w.getD b []).length := by
      have h3 := congrArg (fun l => l.getD b 0)
        (hshape st.downsampling_grid (Tensor.tSub X0 grid) X0)
      dsimp only at h3
      rw [getD_map_of_lt List.length _ [] 0 b (hwdef ▸ hbw),
        getD_map_of_lt List.length _ [] 0 b (by rw [hdlen]; exact hb)] at h3
      rw [hwdef, h3, hdb, List.length_zipWith, hX0blen, hgElen, min_self]
      exact hi
    have hstep := step_nan gE v w ((2 : K) ^ st.number_of_time_points) ((st.dt : K)) b i
      hb hgElen hi hnan hbw hwrow
    rw [hX0def, hgriddef]
    rw [hstep]
    rfl
  exact ⟨main, main⟩

/-- Witness for C7: the tiny configuration, a batch-1 velocity field with
a NaN in its first entry, and the identity-on-displacement interpolator. -/
theorem nan_velocity_integration_error_witness :
    (1 ≤ cfgTiny.number_of_time_points) ∧
    DVAE.vector_field_integration interpId cfgTiny [[FV.nan, FV.val 0]] =
      Except.error NanError.nanIntegrationStep :=
  ⟨by decide,
    (nan_velocity_integration_error cfgTiny interpId [[FV.nan, FV.val 0]] 0 0 (by decide)
      (by decide) (by decide) rfl (fun _ _ _ => rfl) (by decide)).1⟩

/-! ## C2 and C8: the isometry normalizer -/

section IsoLemmas

variable {K : Type} [LinearOrderedField K]

theorem foldl_add_val (l : List K) (a : K) :
    (l.map FV.val).foldl FV.add (FV.val a) = FV.val (a + l.sum) := by
  induction l generalizing a with
  | nil => simp
  | cons b t ih =>
      simp only [List.map_cons, List.foldl_cons]
      rw [show FV.add (FV.val a) (FV.val b) = FV.val (a + b) from rfl, ih, List.sum_cons,
        add_assoc]

theorem fvSum_map_val (l : List K) : fvSum (l.map FV.val) = FV.val l.sum := by
  unfold fvSum
  rw [foldl_add_val, zero_add]

theorem latentNormSq_map_val (zb : List K) :
    latentNormSq (zb.map FV.val) = FV.val ((zb.map (fun a => a * a)).sum) := by
  unfold latentNormSq
  rw [List.map_map, show (fun a => FV.mul a a) ∘ FV.val = FV.val ∘ (fun a : K => a * a) from
    funext (fun a => fvMul_val_val a a), ← List.map_map, fvSum_map_val]

theorem fieldEnergy_map_val (vb mb : List K) :
    fieldEnergy (vb.map FV.val) (mb.map FV.val) =
      FV.val ((List.zipWith (fun a b => a * b) vb mb).sum) := by
  unfold fieldEnergy
  have hz : List.zipWith FV.mul (vb.map FV.val) (mb.map FV.val) =
      (List.zipWith (fun a b => a * b) vb mb).map FV.val := by
    induction vb generalizing mb with
    | nil => simp
    | cons a t ih =>
        cases mb with
        | nil => simp
        | cons b s =>
            simp only [List.map_cons, List.zipWith_cons_cons]
            rw [ih, fvMul_val_val]
  rw [hz, fvSum_map_val]

theorem zipWith_mul_map_scale (c : K) (vb mb : List K) :
    List.zipWith (fun a b => a * b) (vb.map (fun a => c * a)) (mb.map (fun a => c * a)) =
      (List.zipWith (fun a b => a * b) vb mb).map (fun x => (c * c) * x) := by
  induction vb generalizing mb with
  | nil => simp
  | cons a t ih =>
      cases mb with
      | nil => simp
      | cons b s =>
          simp only [List.map_cons, List.zipWith_cons_cons]
          rw [ih]
          congr 1
          ring

theorem sum_map_mul_const (c : K) (l : List K) :
    (l.map (fun x => c * x)).sum = c * l.sum := by
  induction l with
  | nil => simp
  | cons a t ih => simp [ih, mul_add]

theorem fvDiv_val_val (a b : K) (hb : b ≠ 0) :
    FV.div (FV.val a) (FV.val b) = FV.val (a / b) := by
  simp [FV.div, hb]

theorem fvDiv_val_zero_pos (a : K) (ha : 0 < a) :
    FV.div (FV.val a) (FV.val 0) = FV.inf := by
  simp [FV.div, ha, ha.ne']

theorem fgt_val_val (a b : K) : FV.fgt (FV.val a) (FV.val b) = decide (b < a) := rfl

end IsoLemmas

theorem sqrtR_val_neg (x : ℝ) (hx : x < 0) : FV.sqrtR (FV.val x) = FV.nan := by
  simp [FV.sqrtR, hx]

theorem sqrtR_val_nonneg (x : ℝ) (hx : 0 ≤ x) :
    FV.sqrtR (FV.val x) = FV.val (Real.sqrt x) := by
  simp [FV.sqrtR, not_lt.mpr hx]

/-- C2. With the isometry constraint active, for a batch element whose
latent squared norm exceeds `tol` and whose field energy is strictly
positive, the normalizer is the finite scalar `sqrt(latent_norm_sq /
field_energy)`, and rescaling the velocity field (hence, consistently, the
momentum field it was smoothed from) by it makes the rescaled field's
energy equal to the latent squared norm. -/
theorem iso_rescaled_energy (tol : ℝ) (zb vb mb : List ℝ)
    (hL : tol < (zb.map (fun a => a * a)).sum)
    (hE : (0 : ℝ) < (List.zipWith (fun a b => a * b) vb mb).sum) :
    ∃ c : ℝ,
      isoScale realOps tol (latentNormSq (zb.map FV.val))
          (fieldEnergy (vb.map FV.val) (mb.map FV.val)) = FV.val c ∧
      fieldEnergy ((vb.map (fun a => c * a)).map FV.val)
          ((mb.map (fun a => c * a)).map FV.val) =
        latentNormSq (zb.map FV.val) := by
  set l := (zb.map (fun a => a * a)).sum with hldef
  set e := (List.zipWith (fun a b => a * b) vb mb).sum with hedef
  have hl0 : 0 ≤ l := by
    rw [hldef]
    refine List.sum_nonneg ?_
    intro x hx
    obtain ⟨a, _, rfl⟩ := List.mem_map.mp hx
    exact mul_self_nonneg a
  have hle0 : 0 ≤ l / e := div_nonneg hl0 hE.le
  refine ⟨Real.sqrt (l / e), ?_, ?_⟩
  · rw [latentNormSq_map_val, fieldEnergy_map_val, ← hldef, ← hedef]
    unfold isoScale
    rw [show FV.fgt (FV.val l) (FV.val tol) = true by
        rw [fgt_val_val, decide_eq_true_eq]; exact hL]
    rw [if_pos rfl]
    show FV.sqrtR (FV.div (FV.val l) (FV.val e)) = FV.val (Real.sqrt (l / e))
    rw [fvDiv_val_val _ _ hE.ne', sqrtR_val_nonneg _ hle0]
  · rw [latentNormSq_map_val, fieldEnergy_map_val, ← hldef]
    congr 1
    rw [zipWith_mul_map_scale, sum_map_mul_const, ← hedef, Real.mul_self_sqrt hle0,
      div_mul_cancel₀ _ hE.ne']

/-- Witness for C2: `tol = 0`, latent code `[2]` (squared norm 4), velocity
and momentum `[1]` (field energy 1); the normalizer is `sqrt 4 = 2` and the
rescaled energy is 4. -/
theorem iso_rescaled_energy_witness :
    ((0 : ℝ) < (List.zipWith (fun a b => a * b) [(1 : ℝ)] [(1 : ℝ)]).sum) ∧
    ((0 : ℝ) < (([(2 : ℝ)].map (fun a => a * a)).sum)) ∧
    (∃ c : ℝ,
      isoScale realOps 0 (latentNormSq ([(2 : ℝ)].map FV.val))
          (fieldEnergy ([(1 : ℝ)].map FV.val) ([(1 : ℝ)].map FV.val)) = FV.val c ∧
      fieldEnergy (([(1 : ℝ)].map (fun a => c * a)).map FV.val)
          (([(1 : ℝ)].map (fun a => c * a)).map FV.val) =
        latentNormSq ([(2 : ℝ)].map FV.val)) :=
  ⟨by norm_num, by norm_num,
    iso_rescaled_energy 0 [2] [1] [1] (by norm_num) (by norm_num)⟩

/-- C8. The isometry normalizer performs the division and square root with
no guard on the sign of the field energy: with `latent_norm_sq = 1 > tol = 0`,
a zero field energy yields the scale factor `inf` and a negative field
energy yields `nan` — a non-finite scale factor, with no error raised at
this point. -/
theorem iso_unguarded_nonfinite :
    isoScale realOps (0 : ℝ) (FV.val 1) (FV.val 0) = FV.inf ∧
    isoScale realOps (0 : ℝ) (FV.val 1) (FV.val (-1)) = FV.nan ∧
    FV.isFiniteFV (isoScale realOps (0 : ℝ) (FV.val 1) (FV.val 0)) = false ∧
    FV.isFiniteFV (isoScale realOps (0 : ℝ) (FV.val 1) (FV.val (-1))) = false := by
  have hgt : FV.fgt (FV.val (1 : ℝ)) (FV.val 0) = true := by
    rw [fgt_val_val, decide_eq_true_eq]
    norm_num
  have h0 : isoScale realOps (0 : ℝ) (FV.val 1) (FV.val 0) = FV.inf := by
    unfold isoScale
    rw [hgt, if_pos rfl]
    show FV.sqrtR (FV.div (FV.val 1) (FV.val 0)) = FV.inf
    rw [fvDiv_val_zero_pos _ (by norm_num : (0 : ℝ) < 1)]
    rfl
  have hneg : isoScale realOps (0 : ℝ) (FV.val 1) (FV.val (-1)) = FV.nan := by
    unfold isoScale
    rw [hgt, if_pos rfl]
    show FV.sqrtR (FV.div (FV.val 1) (FV.val (-1))) = FV.nan
    rw [fvDiv_val_val _ _ (by norm_num : (-1 : ℝ) ≠ 0)]
    exact sqrtR_val_neg _ (by norm_num)
  exact ⟨h0, hneg, by rw [h0]; rfl, by rw [hneg]; rfl⟩

/-! ## C3: anchoring sends the atlas to the zero latent code -/

theorem zipWith_sub_self {K : Type} [LinearOrderedField K] (l : List K) :
    List.zipWith (fun a b => a - b) l l = List.replicate l.length 0 := by
  induction l with
  | nil => rfl
  | cons a t ih => simp [List.replicate_succ, ih]

/-- C3. In the atlas-anchored variant, encoding the atlas itself yields a
latent code whose psi and spatial components are all zero: the anchor is
the atlas's own (deterministic) encoding and is subtracted from it. -/
theorem atlas_encodes_to_zero {K : Type} [LinearOrderedField K] {Obs : Type}
    (time_encoder space_encoder : Obs → List K) (atlas : Obs) :
    DRVAE.encode time_encoder space_encoder atlas atlas =
      (List.replicate (time_encoder atlas).length 0,
       List.replicate (space_encoder atlas).length 0) := by
  show (List.zipWith (fun a b => a - b) (time_encoder atlas) (time_encoder atlas),
        List.zipWith (fun a b => a - b) (space_encoder atlas) (space_encoder atlas)) = _
  rw [zipWith_sub_self, zipWith_sub_self]

/-! ## C4: the two model classes share the decode pipeline -/

/-- C4. `DVAE` and `DRVAE` have extensionally equal constructors and decode
pipelines — `vector_field_integration`, `apply_diffeomorphism`,
`decode_s`, `absolute_decode` and `decode` compute the same functions —
and `DRVAE.encode` is exactly `DVAE.encode` followed by the atlas
anchoring step: the two variants differ only in that step. -/
theorem variants_share_decode_pipeline :
    (DVAE.init = DRVAE.init) ∧
    (∀ (K : Type) (inst : LinearOrderedField K),
      @DVAE.vector_field_integration K inst = @DRVAE.vector_field_integration K inst) ∧
    (∀ (K : Type) (inst : LinearOrderedField K),
      @DVAE.apply_diffeomorphism K inst = @DRVAE.apply_diffeomorphism K inst) ∧
    (∀ (K : Type) (inst : LinearOrderedField K),
      @DVAE.decode_s K inst = @DRVAE.decode_s K inst) ∧
    (∀ (K : Type) (inst : LinearOrderedField K),
      @DVAE.absolute_decode K inst = @DRVAE.absolute_decode K inst) ∧
    (∀ (K : Type) (inst : LinearOrderedField K),
      @DVAE.decode K inst = @DRVAE.decode K inst) ∧
    (∀ (K : Type) (inst : LinearOrderedField K) (Obs : Type)
      (te se : Obs → List K) (atlas obs : Obs),
      DRVAE.encode te se atlas obs =
        DRVAE.atlas_anchoring te se atlas (DVAE.encode te se obs).1
          (DVAE.encode te se obs).2) :=
  ⟨rfl, fun _ _ => rfl, fun _ _ => rfl, fun _ _ => rfl, fun _ _ => rfl, fun _ _ => rfl,
    fun _ _ _ _ _ _ _ => rfl⟩

/-! ## C5: which configurations construct successfully -/

theorem pow_two_mem_iff (dg : ℕ) :
    (2 ^ dg = 1 ∨ 2 ^ dg = 2 ∨ 2 ^ dg = 4) ↔ dg ≤ 2 := by
  constructor
  · intro h
    by_contra hgt
    push_neg at hgt
    have h8 : (8 : ℕ) ≤ 2 ^ dg := by
      calc (8 : ℕ) = 2 ^ 3 := rfl
        _ ≤ 2 ^ dg := Nat.pow_le_pow_right (by norm_num) hgt
    omega
  · intro h
    interval_cases dg <;> simp

/-- Counterexample to C5 as stated: the `downsampling_grid` configuration
value 4 lies in {1,2,4}, yet construction fails (the assert is on the
derived factor `2 ** downsampling_grid = 16`); and a configuration with
valid dimensionality and downsampling value but `number_of_time_points = 1`
also fails (with a division by zero) — so success is not equivalent to the
claimed condition. -/
theorem construction_cfg_counterexample :
    ((4 : ℕ) = 1 ∨ (4 : ℕ) = 2 ∨ (4 : ℕ) = 4) ∧
    (DVAE.init [1, 32, 32] 4 false 0 false 4 1 5).isOk = false ∧
    (DRVAE.init [1, 32, 32] 4 false 0 false 4 1 5).isOk = false ∧
    (DVAE.init [1, 32, 32] 4 false 0 false 1 1 1).isOk = false := by
  refine ⟨by decide, by decide, by decide, by decide⟩

/-- C5 (amended). Construction of either model class succeeds exactly when
the atlas's spatial dimensionality is 2 or 3, the `downsampling_grid`
configuration value is in {0, 1, 2} (equivalently, the derived factor
`2 ** downsampling_grid` is in {1, 2, 4}), and `number_of_time_points ≠ 1`. -/
theorem construction_success_iff (shape0 : List ℕ) (ld : ℤ) (uc : Bool) (tol : ℚ)
    (iso : Bool) (dg : ℕ) (kw : ℚ) (ntp : ℤ) :
    ((DVAE.init shape0 ld uc tol iso dg kw ntp).isOk = true ↔
      (((shape0.drop 1).length = 2 ∨ (shape0.drop 1).length = 3) ∧ dg ≤ 2 ∧ ntp ≠ 1)) ∧
    ((DRVAE.init shape0 ld uc tol iso dg kw ntp).isOk = true ↔
      (((shape0.drop 1).length = 2 ∨ (shape0.drop 1).length = 3) ∧ dg ≤ 2 ∧ ntp ≠ 1)) := by
  have main : (DVAE.init shape0 ld uc tol iso dg kw ntp).isOk = true ↔
      (((shape0.drop 1).length = 2 ∨ (shape0.drop 1).length = 3) ∧ dg ≤ 2 ∧ ntp ≠ 1) := by
    simp only [DVAE.init]
    split_ifs with h1 h2 h3
    · constructor
      · intro hh; exact absurd hh (by decide)
      · rintro ⟨-, -, hne⟩; exact absurd h3 hne
    · constructor
      · intro _; exact ⟨h1, (pow_two_mem_iff dg).mp h2, h3⟩
      · intro _; rfl
    · constructor
      · intro hh; exact absurd hh (by decide)
      · rintro ⟨-, hle, -⟩; exact (h2 ((pow_two_mem_iff dg).mpr hle)).elim
    · constructor
      · intro hh; exact absurd hh (by decide)
      · rintro ⟨hc, -, -⟩; exact (h1 hc).elim
  exact ⟨main, main⟩

/-! ## C6: the downsampling factor and the grid dimensions -/

/-- Counterexample to C6 as stated: construction accepts a grid dimension
the downsampling factor does not divide (no divisibility check exists);
the floor-divided downsampled size then does not reconstruct the grid
size. -/
theorem downsampling_divisibility_counterexample :
    (DVAE.init [1, 33, 32] 4 false 0 false 1 1 5).isOk = true ∧
    (∃ st, DVAE.init [1, 33, 32] 4 false 0 false 1 1 5 = Except.ok st ∧
      st.downsampling_grid = 2 ∧ st.grid_size = [33, 32] ∧
      st.downsampled_grid_size = [16, 16] ∧ ¬(st.downsampling_grid ∣ 33) ∧
      st.downsampled_grid_size.getD 0 0 * st.downsampling_grid ≠
        st.grid_size.getD 0 0) := by
  refine ⟨by decide, _, rfl, by decide, by decide, by decide, by decide, by decide⟩

/-- C6 (amended). Construction performs no divisibility check — the
downsampled sizes are floor divisions — but whenever the factor does
divide a grid axis, the downsampled size times the factor reconstructs
that axis exactly. -/
theorem downsampled_times_factor (shape0 : List ℕ) (ld : ℤ) (uc : Bool) (tol : ℚ)
    (iso : Bool) (dg : ℕ) (kw : ℚ) (ntp : ℤ) (st : ModelParams)
    (h : DVAE.init shape0 ld uc tol iso dg kw ntp = Except.ok st) (j : ℕ)
    (hj : j < st.grid_size.length)
    (hdvd : st.downsampling_grid ∣ st.grid_size.getD j 0) :
    st.downsampled_grid_size.getD j 0 * st.downsampling_grid = st.grid_size.getD j 0 := by
  simp only [DVAE.init] at h
  split_ifs at h with h1 h2 h3
  all_goals first
    | exact absurd h (by intro hh; exact Except.noConfusion hh)
    | (injection h with h'
       subst h'
       dsimp only at hj hdvd ⊢
       rw [getD_map_of_lt _ _ 0 0 j hj]
       exact Nat.div_mul_cancel hdvd)

/-- Witness for C6 (amended): grid 32 × 32 with factor 2 reconstructs
16 * 2 = 32 on axis 0. -/
theorem downsampled_times_factor_witness :
    ∃ st, DVAE.init [1, 32, 32] 4 false 0 false 1 1 5 = Except.ok st ∧
      st.downsampled_grid_size.getD 0 0 * st.downsampling_grid =
        st.grid_size.getD 0 0 :=
  ⟨_, rfl, downsampled_times_factor [1, 32, 32] 4 false 0 false 1 1 5 _ rfl 0
    (by decide) (by decide)⟩

/-! ## C9: the base grid coordinates -/

/-- Counterexample to C9 as stated: in the valid 32 × 32 configuration with
downsampling factor 2 (downsampled sizes 16 × 16), the base grid contains
the coordinate 31/15, which is not an integer. -/
theorem grid_not_integer_counterexample :
    ((31 : ℚ) / 15) ∈ gridElemQ [32, 32] [16, 16] ∧
    ¬(∃ n : ℤ, ((31 : ℚ) / 15) = (n : ℚ)) := by
  constructor
  · have e32 : ([32, 32] : List ℕ).getD 0 0 = 32 := rfl
    have e16 : ([16, 16] : List ℕ).getD 0 0 = 16 := rfl
    have h1 : axisCoord [32, 32] [16, 16] 0 1 = 31 / 15 := by
      unfold axisCoord linspace
      rw [e32, e16, if_neg (by norm_num : ¬(16 : ℕ) ≤ 1)]
      rw [getD_map_of_lt _ _ 0 0 1 (by simp)]
      rw [List.getD_eq_getElem _ _ (by simp), List.getElem_range]
      push_cast
      norm_num
    unfold gridElemQ
    rw [List.mem_flatMap]
    refine ⟨0, by decide, ?_⟩
    rw [List.mem_map]
    exact ⟨[1, 0], by decide, h1⟩
  · rintro ⟨n, hn⟩
    have h15 : (31 : ℚ) = 15 * (n : ℚ) := by
      field_simp at hn
      linarith [hn]
    have : (31 : ℤ) = 15 * n := by exact_mod_cast h15
    omega

/-- C9 (amended). Each axis of the base grid holds the
`linspace(0, gs - 1, dgs)` coordinates — evenly spaced rationals from 0 to
`gs - 1` sampled at the downsampled count; when the downsampling factor is
1 (so `dgs = gs`), coordinate `i` equals the integer `i`. -/
theorem grid_coords_integer_when_undownsampled (g i : ℕ) (hi : i < g) :
    (linspace 0 ((g : ℚ) - 1) g).getD i 0 = (i : ℚ) := by
  unfold linspace
  by_cases hg : g ≤ 1
  · have hg1 : g = 1 := by omega
    subst hg1
    have hi0 : i = 0 := by omega
    subst hi0
    simp
  · rw [if_neg hg]
    rw [getD_map_of_lt _ _ 0 0 i (by simpa using hi)]
    rw [List.getD_eq_getElem _ _ (by simpa using hi), List.getElem_range]
    have hne : ((g : ℚ) - 1) ≠ 0 := by
      have h2 : 2 ≤ g := by omega
      have h2q : (2 : ℚ) ≤ (g : ℚ) := by exact_mod_cast h2
      intro hcontra
      linarith
    rw [zero_add, sub_zero, mul_comm, mul_div_assoc, div_self hne, mul_one]

/-- Witness for C9 (amended): with `gs = dgs = 4`, coordinate 3 of the axis
is the integer 3. -/
theorem grid_coords_integer_when_undownsampled_witness :
    (3 < 4) ∧ (linspace 0 ((4 : ℚ) - 1) 4).getD 3 0 = ((3 : ℕ) : ℚ) :=
  ⟨by decide, grid_coords_integer_when_undownsampled 4 3 (by decide)⟩

/-! ## C10: `number_of_time_points` is not validated -/

/-- C10. With otherwise valid configuration, `number_of_time_points = 1`
makes construction fail with the division by zero in
`dt = 1 / (number_of_time_points - 1)` (not a configuration assert), while
every `number_of_time_points ≤ 0` is accepted and yields a negative `dt`. -/
theorem ntp_not_validated (shape0 : List ℕ) (ld : ℤ) (uc : Bool) (tol : ℚ)
    (iso : Bool) (dg : ℕ) (kw : ℚ)
    (hdim : (shape0.drop 1).length = 2 ∨ (shape0.drop 1).length = 3)
    (hdg : 2 ^ dg = 1 ∨ 2 ^ dg = 2 ∨ 2 ^ dg = 4) :
    (DVAE.init shape0 ld uc tol iso dg kw 1 = Except.error ConfigError.divisionByZero ∧
     DRVAE.init shape0 ld uc tol iso dg kw 1 = Except.error ConfigError.divisionByZero) ∧
    (∀ ntp : ℤ, ntp ≤ 0 →
      ∃ st, DVAE.init shape0 ld uc tol iso dg kw ntp = Except.ok st ∧ st.dt < 0) := by
  constructor
  · constructor
    · simp only [DVAE.init]
      rw [if_pos hdim, if_pos hdg]
      simp
    · simp only [DRVAE.init]
      rw [if_pos hdim, if_pos hdg]
      simp
  · intro ntp hntp
    simp only [DVAE.init]
    rw [if_pos hdim, if_pos hdg, if_neg (by omega : ¬ntp = 1)]
    refine ⟨_, rfl, ?_⟩
    show (1 : ℚ) / ((ntp : ℚ) - 1) < 0
    have hq : (ntp : ℚ) ≤ 0 := by exact_mod_cast hntp
    exact div_neg_of_pos_of_neg one_pos (by linarith)

/-- Witness for C10: the concrete shape (1, 1, 32, 32) with factor 2;
`ntp = 1` raises the division by zero and `ntp = 0` is accepted with
`dt = -1`. -/
theorem ntp_not_validated_witness :
    (([1, 32, 32].drop 1).length = 2 ∨ ([1, 32, 32].drop 1).length = 3) ∧
    (DVAE.init [1, 32, 32] 4 false 0 false 1 1 1 =
      Except.error ConfigError.divisionByZero) ∧
    (∃ st, DVAE.init [1, 32, 32] 4 false 0 false 1 1 0 = Except.ok st ∧ st.dt < 0) :=
  ⟨by decide,
    (ntp_not_validated [1, 32, 32] 4 false 0 false 1 1 (by decide) (by decide)).1.1,
    (ntp_not_validated [1, 32, 32] 4 false 0 false 1 1 (by decide) (by decide)).2 0
      (by decide)⟩
